import Mathlib

/-!
Shallow embedding of the `FileUploadAreaComponent` from
`src/unnamed/part_001` (an Angular Material custom form-field control for
file uploads), together with the host-environment primitives it relies on
(JS `Set`, RxJS `Subject`, `parseInt`, `coerceBooleanProperty`, template
string conversion).  Files are identity-compared references, modelled as
natural-number handles.
-/

namespace FileUploadArea

/-- A `File` is an opaque host object compared by reference; we model the
reference as a natural number handle. -/
abbrev File := Nat

/-- JS `Set.add`: a `Set` keeps insertion order and never stores the same
reference twice, so we model its contents as an insertion-ordered list and
`add` appends only when the element is absent. -/
def jsSetAdd (l : List File) (f : File) : List File :=
  if f ∈ l then l else l ++ [f]

/-- JS `Set.delete`: removes the element (present at most once). -/
def jsSetDelete (l : List File) (f : File) : List File :=
  l.filter (fun g => decide (g ≠ f))

/-- Observable state of an RxJS `Subject<void>`: `nextCalls` counts
invocations of `.next()`, `emits` counts emissions actually observable by
subscribers (a `Subject` that has completed ignores further `next` calls),
and `completed` records whether `.complete()` has run. -/
structure SubjectState where
  nextCalls : Nat
  emits : Nat
  completed : Bool
deriving Repr, DecidableEq

/-- `subject.next()`. -/
def subjectNext (s : SubjectState) : SubjectState :=
  { s with nextCalls := s.nextCalls + 1,
           emits := if s.completed then s.emits else s.emits + 1 }

/-- `subject.complete()`. -/
def subjectComplete (s : SubjectState) : SubjectState :=
  { s with completed := true }

/-- Modelled from the spec: the class `MyFileListInput` (its file
`my-file-list.input.ts` is not under `src/`) is the ValueWrapper, "a thin
carrier object exposing the current Selection"; it simply carries the
`Set<File>` it was constructed with, as its `files` field. -/
structure MyFileListInput where
  files : List File
deriving Repr, DecidableEq

/-- The JS values that can reach the `required`/`disabled` setters or the
focus-origin callback. -/
inductive JsValue
  | undefined
  | null
  | bool (b : Bool)
  | num (n : Int)
  | str (s : String)
deriving Repr, DecidableEq

/-- JS template-string conversion of a value (the CDK coercion applies it
as a template literal). -/
def jsToString : JsValue → String
  | .undefined => "undefined"
  | .null => "null"
  | .bool b => if b then "true" else "false"
  | .num n => toString n
  | .str s => s

/-- JS truthiness of a value. -/
def jsTruthy : JsValue → Bool
  | .undefined => false
  | .null => false
  | .bool b => b
  | .num n => decide (n ≠ 0)
  | .str s => decide (s ≠ "")

/-- `coerceBooleanProperty` from `@angular/cdk/coercion`, used by the
`required` and `disabled` setters:
`value != null && String(value) !== 'false'`. -/
def coerceBooleanProperty (v : JsValue) : Bool :=
  !(v == JsValue.undefined) && !(v == JsValue.null) && (jsToString v != "false")

/-- A JS whitespace character (the forms `parseInt` skips). -/
def isJsSpace (c : Char) : Bool :=
  c == ' ' || c == '\t' || c == '\n' || c == '\r'

/-- `isNaN(parseInt(key, 10))`: `parseInt` skips leading whitespace and an
optional sign and then needs at least one decimal digit; it returns `NaN`
exactly when no digit follows. -/
def parseIntIsNaN (s : String) : Bool :=
  let cs := s.toList.dropWhile isJsSpace
  let cs :=
    match cs with
    | [] => []
    | c :: rest => if c == '+' || c == '-' then rest else c :: rest
  match cs with
  | [] => true
  | c :: _ => !c.isDigit

/-- The loop body of `onFilesAdded`: fold over the index-keyed file
collection, adding the file under every key `k` with
`!isNaN(parseInt(k, 10))`. -/
def addFilesFromList (files : List File) (fl : List (String × File)) : List File :=
  fl.foldl (fun acc kv => if parseIntIsNaN kv.1 then acc else jsSetAdd acc kv.2) files

/-- A key that is numeric in the spec's sense: a nonempty string of
decimal digits. -/
def specNumericKey (s : String) : Bool :=
  !(s == "") && s.toList.all Char.isDigit

/-- The claim's reading of the same loop (spec side, for comparison with
`addFilesFromList`): add exactly the files stored under numeric keys. -/
def addNumericKeyedFiles (files : List File) (fl : List (String × File)) : List File :=
  fl.foldl (fun acc kv => if specNumericKey kv.1 then jsSetAdd acc kv.2 else acc) files

/-- The component's instance state (`FileUploadAreaComponent` fields). -/
structure Component where
  files : List File
  stateChanges : SubjectState
  /-- whether `registerOnChange` has stored a `_onChange` callback -/
  hasOnChange : Bool
  /-- how many times the stored `_onChange` callback has been invoked -/
  onChangeCalls : Nat
  id : String
  focused : Bool
  _required : Bool
  _disabled : Bool
  describedBy : String
  /-- whether `fm.stopMonitoring(elRef.nativeElement)` has been called -/
  monitoringStopped : Bool
deriving Repr, DecidableEq

/-- The JS error raised when a mutating operation calls `this._onChange`
while no callback was registered (`_onChange` is `undefined`). -/
inductive JsError
  | typeErrorNotAFunction
deriving Repr, DecidableEq

/-- Result of an operation that may throw: the state carries every effect
performed before the throw point (in this component the fallible
`_onChange` call is always the final statement). -/
structure OpResult where
  state : Component
  error : Option JsError
deriving Repr, DecidableEq

/-- `this._onChange(this.files)`: throws a `TypeError` when no callback
has been registered. -/
def invokeOnChange (c : Component) : OpResult :=
  if c.hasOnChange then
    { state := { c with onChangeCalls := c.onChangeCalls + 1 }, error := none }
  else
    { state := c, error := some JsError.typeErrorNotAFunction }

/-- `get value()`: `return new MyFileListInput(this.files)`. -/
def getValue (c : Component) : MyFileListInput :=
  { files := c.files }

/-- `set value(val)`: `this.files = val.files; this.stateChanges.next();
this._onChange(this.files)`. -/
def setValue (c : Component) (w : MyFileListInput) : OpResult :=
  invokeOnChange { c with files := w.files, stateChanges := subjectNext c.stateChanges }

/-- `get empty()`: `this.files.size < 1`. -/
def empty (c : Component) : Bool :=
  decide (c.files.length < 1)

/-- `get shouldLabelFloat()`: `this.focused || !this.empty`. -/
def shouldLabelFloat (c : Component) : Bool :=
  c.focused || !(empty c)

/-- `set required(req)`: coerce and emit a state change. -/
def setRequired (c : Component) (v : JsValue) : Component :=
  { c with _required := coerceBooleanProperty v,
           stateChanges := subjectNext c.stateChanges }

/-- `set disabled(dis)`: coerce and emit a state change. -/
def setDisabled (c : Component) (v : JsValue) : Component :=
  { c with _disabled := coerceBooleanProperty v,
           stateChanges := subjectNext c.stateChanges }

/-- `setDescribedByIds(ids)`: `this.describedBy = ids.join(' ')`. -/
def setDescribedByIds (c : Component) (ids : List String) : Component :=
  { c with describedBy := String.intercalate " " ids }

/-- `onContainerClick(event)`: a no-op. -/
def onContainerClick (c : Component) : Component :=
  c

/-- `onFilesAdded()`: iterate the native input's index-keyed `files`
collection, add every file whose key passes the `parseInt` test, then
emit a state change and call the change callback. -/
def onFilesAdded (c : Component) (fl : List (String × File)) : OpResult :=
  invokeOnChange { c with files := addFilesFromList c.files fl,
                          stateChanges := subjectNext c.stateChanges }

/-- `addFiles()`: clicks the hidden native input; no component state
change. -/
def addFiles (c : Component) : Component :=
  c

/-- `removeFile(file)`: `this.files.delete(file); this.stateChanges.next();
this._onChange(this.files)`. -/
def removeFile (c : Component) (f : File) : OpResult :=
  invokeOnChange { c with files := jsSetDelete c.files f,
                          stateChanges := subjectNext c.stateChanges }

/-- `ngOnDestroy()`: `this.stateChanges.complete();
this.fm.stopMonitoring(this.elRef.nativeElement)`. -/
def ngOnDestroy (c : Component) : Component :=
  { c with stateChanges := subjectComplete c.stateChanges,
           monitoringStopped := true }

/-- `registerOnChange(fn)`: stores the callback. -/
def registerOnChange (c : Component) : Component :=
  { c with hasOnChange := true }

/-- `registerOnTouched(fn)`: a no-op. -/
def registerOnTouched (c : Component) : Component :=
  c

/-- `setDisabledState(isDisabled)`: a no-op. -/
def setDisabledState (c : Component) : Component :=
  c

/-- `writeValue(obj)`: a no-op. -/
def writeValue (c : Component) : Component :=
  c

/-- The focus-monitor subscription callback from the constructor:
`this.focused = !!origin; this.stateChanges.next()`. -/
def focusChange (c : Component) (origin : JsValue) : Component :=
  { c with focused := jsTruthy origin,
           stateChanges := subjectNext c.stateChanges }

/-- The fresh instance state right after the constructor body ran, with
the given already-generated `id` string. -/
def initialComponent (idStr : String) : Component :=
  { files := []
    stateChanges := { nextCalls := 0, emits := 0, completed := false }
    hasOnChange := false
    onChangeCalls := 0
    id := idStr
    focused := false
    _required := false
    _disabled := false
    describedBy := ""
    monitoringStopped := false }

/-- Decimal digit characters of `n`, most significant first: the JS
number-to-string conversion performed by the template literal in the `id`
initializer, restricted to the nonnegative integers the counter takes. -/
def decChars (n : Nat) : List Char :=
  if n < 10 then [Nat.digitChar n]
  else decChars (n / 10) ++ [Nat.digitChar (n % 10)]
termination_by n
decreasing_by
  exact Nat.div_lt_self (by omega) (by omega)

/-- JS string of the nonnegative integer `n`. -/
def jsNatToString (n : Nat) : String :=
  String.mk (decChars n)

/-- The fixed id base string of the component. -/
def idBase : String :=
  "app-file-upload-area"

/-- The id string a construction with counter value `n` produces:
the template literal in the `id` field initializer. -/
def mkId (n : Nat) : String :=
  idBase ++ jsNatToString n

/-- One instance construction against the static `nextId` counter:
returns the new instance and the updated counter
(`id = mkId nextId`, `nextId++`). -/
def construct (nextId : Nat) : Component × Nat :=
  (initialComponent (mkId nextId), nextId + 1)

/-- `n` successive instance constructions starting from counter value `k`. -/
def constructN : Nat → Nat → List Component
  | 0, _ => []
  | n + 1, k => (construct k).1 :: constructN n (construct k).2

/-- The public operations a client (user event, forms framework or focus
monitor) can perform on a live component. -/
inductive Op
  | opSetValue (w : MyFileListInput)
  | opOnFilesAdded (fl : List (String × File))
  | opRemoveFile (f : File)
  | opSetRequired (v : JsValue)
  | opSetDisabled (v : JsValue)
  | opSetDescribedByIds (ids : List String)
  | opFocusChange (v : JsValue)
  | opRegisterOnChange
  | opRegisterOnTouched
  | opSetDisabledState
  | opWriteValue
  | opContainerClick
  | opAddFiles
  | opDestroy

/-- Applying one operation; for the fallible operations the state carries
all effects performed before a possible throw. -/
def applyOp (c : Component) : Op → Component
  | .opSetValue w => (setValue c w).state
  | .opOnFilesAdded fl => (onFilesAdded c fl).state
  | .opRemoveFile f => (removeFile c f).state
  | .opSetRequired v => setRequired c v
  | .opSetDisabled v => setDisabled c v
  | .opSetDescribedByIds ids => setDescribedByIds c ids
  | .opFocusChange v => focusChange c v
  | .opRegisterOnChange => registerOnChange c
  | .opRegisterOnTouched => registerOnTouched c
  | .opSetDisabledState => setDisabledState c
  | .opWriteValue => writeValue c
  | .opContainerClick => onContainerClick c
  | .opAddFiles => addFiles c
  | .opDestroy => ngOnDestroy c

/-- Applying a sequence of operations in order. -/
def applyOps (c : Component) (ops : List Op) : Component :=
  ops.foldl applyOp c

/-- The component states reachable from a fresh instance.  The initial id
string is left arbitrary (every real instance has one of the `mkId` ids,
a subset of these states).  A `setValue` step receives the contents of an
actual JS `Set` (the wrapper's `files`), which never holds duplicates. -/
inductive Reachable : Component → Prop
  | init (idStr : String) : Reachable (initialComponent idStr)
  | stepSetValue {c : Component} (w : MyFileListInput) (hw : w.files.Nodup)
      (h : Reachable c) : Reachable (setValue c w).state
  | stepOnFilesAdded {c : Component} (fl : List (String × File))
      (h : Reachable c) : Reachable (onFilesAdded c fl).state
  | stepRemoveFile {c : Component} (f : File)
      (h : Reachable c) : Reachable (removeFile c f).state
  | stepSetRequired {c : Component} (v : JsValue)
      (h : Reachable c) : Reachable (setRequired c v)
  | stepSetDisabled {c : Component} (v : JsValue)
      (h : Reachable c) : Reachable (setDisabled c v)
  | stepSetDescribedByIds {c : Component} (ids : List String)
      (h : Reachable c) : Reachable (setDescribedByIds c ids)
  | stepFocusChange {c : Component} (v : JsValue)
      (h : Reachable c) : Reachable (focusChange c v)
  | stepRegisterOnChange {c : Component}
      (h : Reachable c) : Reachable (registerOnChange c)
  | stepDestroy {c : Component}
      (h : Reachable c) : Reachable (ngOnDestroy c)

/-!
Reference-level model for the aliasing behaviour of the `value` accessor:
JS `Set` objects live on a heap addressed by numeric references, a
`MyFileListInput` wrapper object holds a reference to a `Set`, and the
component holds the reference its `files` field currently aliases.
-/

/-- The heap: contents of every `Set` object, the `files` reference held
by every allocated wrapper object, and the next fresh wrapper address. -/
structure RefHeap where
  sets : Nat → List File
  wrapperFiles : Nat → Nat
  nextWrapper : Nat

/-- The component's `files` field seen as a reference to a heap `Set`. -/
structure RefComponent where
  filesRef : Nat

/-- Modelled from the spec: `new MyFileListInput(s)` (the class file
`my-file-list.input.ts` is not under `src/`) allocates a fresh wrapper
whose `files` field stores the given `Set` by reference, no copy. -/
def newMyFileListInput (h : RefHeap) (setRef : Nat) : Nat × RefHeap :=
  (h.nextWrapper,
   { h with
     wrapperFiles := fun r => if r = h.nextWrapper then setRef else h.wrapperFiles r
     nextWrapper := h.nextWrapper + 1 })

/-- `get value()` at the reference level:
`return new MyFileListInput(this.files)`. -/
def refGetValue (c : RefComponent) (h : RefHeap) : Nat × RefHeap :=
  newMyFileListInput h c.filesRef

/-- `set value(val)` at the reference level: `this.files = val.files`
makes the component alias the wrapper's `Set`. -/
def refSetValue (c : RefComponent) (h : RefHeap) (w : Nat) : RefComponent :=
  { filesRef := h.wrapperFiles w }

/-- `removeFile` at the reference level: mutates the aliased `Set` in
place. -/
def refRemoveFile (c : RefComponent) (h : RefHeap) (f : File) : RefHeap :=
  { h with sets := fun r => if r = c.filesRef then jsSetDelete (h.sets r) f else h.sets r }

/-- `onFilesAdded` at the reference level: mutates the aliased `Set` in
place. -/
def refOnFilesAdded (c : RefComponent) (h : RefHeap) (fl : List (String × File)) : RefHeap :=
  { h with sets := fun r => if r = c.filesRef then addFilesFromList (h.sets r) fl else h.sets r }

/-! Helper lemmas about the JS `Set` model. -/

theorem mem_jsSetAdd (l : List File) (g f : File) :
    f ∈ jsSetAdd l g ↔ f ∈ l ∨ f = g := by
  unfold jsSetAdd
  split
  · next hg =>
    constructor
    · exact Or.inl
    · rintro (hf | rfl)
      · exact hf
      · exact hg
  · simp

theorem jsSetAdd_of_mem {l : List File} {g : File} (h : g ∈ l) :
    jsSetAdd l g = l := by
  unfold jsSetAdd
  exact if_pos h

theorem jsSetAdd_nodup {l : List File} (g : File) (h : l.Nodup) :
    (jsSetAdd l g).Nodup := by
  unfold jsSetAdd
  split
  · exact h
  · next hg =>
    simp [List.nodup_append, h]
    intro hgl
    exact hg hgl

theorem mem_jsSetDelete (l : List File) (f g : File) :
    g ∈ jsSetDelete l f ↔ g ∈ l ∧ g ≠ f := by
  unfold jsSetDelete
  simp [List.mem_filter]

theorem jsSetDelete_of_not_mem {l : List File} {f : File} (h : f ∉ l) :
    jsSetDelete l f = l := by
  unfold jsSetDelete
  apply List.filter_eq_self.mpr
  intro a ha
  simp
  intro rfl0
  exact h (rfl0 ▸ ha)

theorem jsSetDelete_nodup {l : List File} (f : File) (h : l.Nodup) :
    (jsSetDelete l f).Nodup := by
  unfold jsSetDelete
  exact h.filter _

theorem mem_addFilesFromList (fl : List (String × File)) (files : List File) (f : File) :
    f ∈ addFilesFromList files fl ↔
      f ∈ files ∨ ∃ k : String, (k, f) ∈ fl ∧ parseIntIsNaN k = false := by
  induction fl generalizing files with
  | nil => simp [addFilesFromList]
  | cons kv tl ih =>
    unfold addFilesFromList
    simp only [List.foldl_cons]
    by_cases hk : parseIntIsNaN kv.1
    · rw [if_pos hk]
      rw [show List.foldl _ files tl = addFilesFromList files tl from rfl, ih]
      constructor
      · rintro (hf | ⟨k, hkf, hnan⟩)
        · exact Or.inl hf
        · exact Or.inr ⟨k, List.mem_cons_of_mem _ hkf, hnan⟩
      · rintro (hf | ⟨k, hkf, hnan⟩)
        · exact Or.inl hf
        · rcases List.mem_cons.mp hkf with heq | htl
          · exfalso
            have hk1 : k = kv.1 := congrArg Prod.fst heq
            rw [hk1, hk] at hnan
            exact absurd hnan (by decide)
          · exact Or.inr ⟨k, htl, hnan⟩
    · rw [if_neg hk]
      rw [show List.foldl _ (jsSetAdd files kv.2) tl = addFilesFromList (jsSetAdd files kv.2) tl from rfl,
          ih]
      rw [mem_jsSetAdd]
      constructor
      · rintro ((hf | rfl) | ⟨k, hkf, hnan⟩)
        · exact Or.inl hf
        · exact Or.inr ⟨kv.1, List.mem_cons_self _ _, Bool.eq_false_iff.mpr hk⟩
        · exact Or.inr ⟨k, List.mem_cons_of_mem _ hkf, hnan⟩
      · rintro (hf | ⟨k, hkf, hnan⟩)
        · exact Or.inl (Or.inl hf)
        · rcases List.mem_cons.mp hkf with heq | htl
          · left
            right
            exact congrArg Prod.snd heq
          · exact Or.inr ⟨k, htl, hnan⟩

theorem addFilesFromList_nodup (fl : List (String × File)) (files : List File)
    (h : files.Nodup) : (addFilesFromList files fl).Nodup := by
  induction fl generalizing files with
  | nil => exact h
  | cons kv tl ih =>
    unfold addFilesFromList
    simp only [List.foldl_cons]
    by_cases hk : parseIntIsNaN kv.1
    · rw [if_pos hk]
      exact ih files h
    · rw [if_neg hk]
      exact ih _ (jsSetAdd_nodup kv.2 h)

theorem addFilesFromList_of_mem (fl : List (String × File)) (files : List File)
    (h : ∀ kv ∈ fl, kv.2 ∈ files) : addFilesFromList files fl = files := by
  induction fl with
  | nil => rfl
  | cons kv tl ih =>
    unfold addFilesFromList
    simp only [List.foldl_cons]
    have hstep : (if parseIntIsNaN kv.1 then files else jsSetAdd files kv.2) = files := by
      split
      · rfl
      · exact jsSetAdd_of_mem (h kv (List.mem_cons_self _ _))
    rw [hstep]
    exact ih fun kv hkv => h kv (List.mem_cons_of_mem _ hkv)

/-! Helper lemmas about `invokeOnChange`. -/

theorem invokeOnChange_state_files (c : Component) :
    (invokeOnChange c).state.files = c.files := by
  unfold invokeOnChange
  split <;> rfl

theorem invokeOnChange_state_stateChanges (c : Component) :
    (invokeOnChange c).state.stateChanges = c.stateChanges := by
  unfold invokeOnChange
  split <;> rfl

theorem invokeOnChange_state_onChangeCalls (c : Component) (h : c.hasOnChange = true) :
    (invokeOnChange c).state.onChangeCalls = c.onChangeCalls + 1 := by
  unfold invokeOnChange
  rw [if_pos h]

theorem invokeOnChange_error_iff (c : Component) :
    (invokeOnChange c).error = none ↔ c.hasOnChange = true := by
  unfold invokeOnChange
  split
  · next h => simp [h]
  · next h => simp [h]

/-- C6: for every component state, `shouldLabelFloat` is the disjunction
of `focused` and the negation of `empty`, it returns `true` exactly when
the component is focused or the Selection is non-empty, and `empty`
returns `true` exactly when the Selection has zero members. -/
theorem C6_shouldLabelFloat_spec (c : Component) :
    shouldLabelFloat c = (c.focused || !(empty c)) ∧
    (shouldLabelFloat c = true ↔ (c.focused = true ∨ c.files ≠ [])) ∧
    (empty c = true ↔ c.files = []) := by
  refine ⟨rfl, ?_, ?_⟩
  · unfold shouldLabelFloat empty
    simp [List.length_eq_zero]
  · unfold empty
    simp [List.length_eq_zero]

/-- C4 counterexample: the falsy inputs `""` (empty string) and `0` are
stored as `true` by the `required`/`disabled` setters, not as `false` as
the claim states (`coerceBooleanProperty` maps every value other than
`null`/`undefined` whose string form is not `"false"` to `true`). -/
theorem C4_counterexample :
    jsTruthy (JsValue.str "") = false ∧
    jsTruthy (JsValue.num 0) = false ∧
    (setRequired (initialComponent "a") (JsValue.str ""))._required = true ∧
    (setDisabled (initialComponent "a") (JsValue.num 0))._disabled = true := by
  refine ⟨rfl, by decide, rfl, by decide⟩

/-- C4 (amended): the `required` and `disabled` setters store
`coerceBooleanProperty v`, which is `true` exactly when `v` is neither
`undefined` nor `null` and its string conversion is not `"false"`.  In
particular the string `"true"` and the number `1` are stored as `true`
and `undefined` is stored as `false`, but the falsy values `""` and `0`
are stored as `true`. -/
theorem C4_boolean_coercion (c : Component) (v : JsValue) :
    ((setRequired c v)._required = true ↔
      (v ≠ JsValue.undefined ∧ v ≠ JsValue.null ∧ jsToString v ≠ "false")) ∧
    (setRequired c v)._required = coerceBooleanProperty v ∧
    (setDisabled c v)._disabled = coerceBooleanProperty v ∧
    (setRequired c (JsValue.str "true"))._required = true ∧
    (setRequired c (JsValue.num 1))._required = true ∧
    (setRequired c JsValue.undefined)._required = false ∧
    (setRequired c (JsValue.str ""))._required = true ∧
    (setRequired c (JsValue.num 0))._required = true := by
  refine ⟨?_, rfl, rfl, rfl, rfl, rfl, rfl, rfl⟩
  show coerceBooleanProperty v = true ↔ _
  unfold coerceBooleanProperty
  simp [and_assoc]

/-- C5 counterexample: in the freshly constructed state no change
callback is registered, and `removeFile` (like the `value` setter and
`onFilesAdded`) then throws a `TypeError` when it calls the missing
`_onChange` — so not every operation is error-free in every reachable
state. -/
theorem C5_counterexample :
    (initialComponent "a").hasOnChange = false ∧
    (removeFile (initialComponent "a") 0).error = some JsError.typeErrorNotAFunction ∧
    (setValue (initialComponent "a") { files := [] }).error
      = some JsError.typeErrorNotAFunction ∧
    (onFilesAdded (initialComponent "a") []).error
      = some JsError.typeErrorNotAFunction := by
  refine ⟨rfl, rfl, rfl, rfl⟩

/-- C5 (amended): the three mutating operations that invoke the change
callback (`value` setter, `onFilesAdded`, `removeFile`) complete without
error exactly when `registerOnChange` has stored a callback; every other
operation of the component is a total function and never raises.  The
claim's inclusion of states without a registered callback fails: there
the three operations throw a `TypeError`. -/
theorem C5_error_free_iff_registered (c : Component) (w : MyFileListInput)
    (fl : List (String × File)) (f : File) :
    ((setValue c w).error = none ↔ c.hasOnChange = true) ∧
    ((onFilesAdded c fl).error = none ↔ c.hasOnChange = true) ∧
    ((removeFile c f).error = none ↔ c.hasOnChange = true) := by
  exact ⟨invokeOnChange_error_iff _, invokeOnChange_error_iff _, invokeOnChange_error_iff _⟩

/-- C1 counterexample: the key `"1x"` is not a numeric key, yet
`onFilesAdded` adds the file stored under it, because the code's filter
`!isNaN(parseInt(key, 10))` accepts every key that merely starts with a
digit — so the claim "adds exactly the files under numeric keys,
skipping every non-numeric key" fails on this input. -/
theorem C1_counterexample :
    specNumericKey "1x" = false ∧
    (onFilesAdded (registerOnChange (initialComponent "a")) [("1x", 1)]).state.files = [1] ∧
    addNumericKeyedFiles (registerOnChange (initialComponent "a")).files [("1x", 1)] = [] ∧
    (onFilesAdded (registerOnChange (initialComponent "a")) [("1x", 1)]).state.files ≠
      addNumericKeyedFiles (registerOnChange (initialComponent "a")).files [("1x", 1)] := by
  refine ⟨by decide, by decide, by decide, by decide⟩

/-- C1 (amended): `onFilesAdded` adds to the Selection exactly the files
stored under keys accepted by `parseInt` — keys that, after optional
leading whitespace and an optional sign, begin with a decimal digit —
and skips every other key; it then emits one state-change signal and
invokes the registered change callback once. -/
theorem C1_onFilesAdded_spec (c : Component) (fl : List (String × File))
    (hcb : c.hasOnChange = true) (hco : c.stateChanges.completed = false) :
    (∀ f : File, f ∈ (onFilesAdded c fl).state.files ↔
        f ∈ c.files ∨ ∃ k : String, (k, f) ∈ fl ∧ parseIntIsNaN k = false) ∧
    (onFilesAdded c fl).state.stateChanges.nextCalls = c.stateChanges.nextCalls + 1 ∧
    (onFilesAdded c fl).state.stateChanges.emits = c.stateChanges.emits + 1 ∧
    (onFilesAdded c fl).state.onChangeCalls = c.onChangeCalls + 1 ∧
    (onFilesAdded c fl).error = none := by
  unfold onFilesAdded
  refine ⟨?_, ?_, ?_, ?_, ?_⟩
  · intro f
    rw [invokeOnChange_state_files]
    exact mem_addFilesFromList fl c.files f
  · rw [invokeOnChange_state_stateChanges]
    rfl
  · rw [invokeOnChange_state_stateChanges]
    show (subjectNext c.stateChanges).emits = _
    unfold subjectNext
    rw [hco]
    rfl
  · rw [invokeOnChange_state_onChangeCalls]
    exact hcb
  · exact (invokeOnChange_error_iff _).mpr hcb

/-- C1 witness: the amended theorem applied to the fresh component with a
registered callback and the collection `[("0", 7)]`. -/
theorem C1_onFilesAdded_spec_witness :
    (registerOnChange (initialComponent "a")).hasOnChange = true ∧
    (registerOnChange (initialComponent "a")).stateChanges.completed = false ∧
    ((∀ f : File, f ∈ (onFilesAdded (registerOnChange (initialComponent "a")) [("0", 7)]).state.files ↔
        f ∈ (registerOnChange (initialComponent "a")).files ∨
          ∃ k : String, (k, f) ∈ [("0", (7 : File))] ∧ parseIntIsNaN k = false) ∧
      (onFilesAdded (registerOnChange (initialComponent "a")) [("0", 7)]).state.stateChanges.nextCalls
        = (registerOnChange (initialComponent "a")).stateChanges.nextCalls + 1 ∧
      (onFilesAdded (registerOnChange (initialComponent "a")) [("0", 7)]).state.stateChanges.emits
        = (registerOnChange (initialComponent "a")).stateChanges.emits + 1 ∧
      (onFilesAdded (registerOnChange (initialComponent "a")) [("0", 7)]).state.onChangeCalls
        = (registerOnChange (initialComponent "a")).onChangeCalls + 1 ∧
      (onFilesAdded (registerOnChange (initialComponent "a")) [("0", 7)]).error = none) :=
  ⟨rfl, rfl, C1_onFilesAdded_spec (registerOnChange (initialComponent "a")) [("0", 7)] rfl rfl⟩

/-- C2: `removeFile f` leaves the Selection unchanged when `f` is absent,
removes `f` (and only `f`) when present, and in both cases pushes one
state-change notification (observable because the subject is live) and
invokes the registered change callback once, raising no error. -/
theorem C2_removeFile_spec (c : Component) (f : File)
    (hcb : c.hasOnChange = true) (hco : c.stateChanges.completed = false) :
    (f ∉ c.files → (removeFile c f).state.files = c.files) ∧
    (f ∈ c.files →
      f ∉ (removeFile c f).state.files ∧
        ∀ g : File, g ≠ f → (g ∈ (removeFile c f).state.files ↔ g ∈ c.files)) ∧
    (removeFile c f).state.stateChanges.nextCalls = c.stateChanges.nextCalls + 1 ∧
    (removeFile c f).state.stateChanges.emits = c.stateChanges.emits + 1 ∧
    (removeFile c f).state.onChangeCalls = c.onChangeCalls + 1 ∧
    (removeFile c f).error = none := by
  unfold removeFile
  refine ⟨?_, ?_, ?_, ?_, ?_, ?_⟩
  · intro hf
    rw [invokeOnChange_state_files]
    show jsSetDelete c.files f = c.files
    exact jsSetDelete_of_not_mem hf
  · intro hf
    constructor
    · rw [invokeOnChange_state_files]
      show f ∉ jsSetDelete c.files f
      rw [mem_jsSetDelete]
      simp
    · intro g hg
      rw [invokeOnChange_state_files]
      show g ∈ jsSetDelete c.files f ↔ g ∈ c.files
      rw [mem_jsSetDelete]
      simp [hg]
  · rw [invokeOnChange_state_stateChanges]
    rfl
  · rw [invokeOnChange_state_stateChanges]
    show (subjectNext c.stateChanges).emits = _
    unfold subjectNext
    rw [hco]
    rfl
  · rw [invokeOnChange_state_onChangeCalls]
    exact hcb
  · exact (invokeOnChange_error_iff _).mpr hcb

/-- C2 witness: the theorem applied to a component holding `{3}` with a
registered callback, removing the absent file `5`. -/
theorem C2_removeFile_spec_witness :
    (registerOnChange (setValue (initialComponent "a") { files := [3] }).state).hasOnChange = true ∧
    (registerOnChange (setValue (initialComponent "a") { files := [3] }).state).stateChanges.completed
      = false ∧
    ((5 : File) ∉ (registerOnChange (setValue (initialComponent "a") { files := [3] }).state).files →
      (removeFile (registerOnChange (setValue (initialComponent "a") { files := [3] }).state) 5).state.files
        = (registerOnChange (setValue (initialComponent "a") { files := [3] }).state).files) ∧
    (removeFile (registerOnChange (setValue (initialComponent "a") { files := [3] }).state) 5).state.files
      = [3] :=
  ⟨rfl, rfl,
    (C2_removeFile_spec (registerOnChange (setValue (initialComponent "a") { files := [3] }).state)
      5 rfl rfl).1,
    by decide⟩

/-- C3: each single call to the `value` setter, to `onFilesAdded` or to
`removeFile` pushes exactly one notification onto `stateChanges`
(observable, the subject being live) and invokes the registered change
callback exactly once. -/
theorem C3_one_notification_per_mutation (c : Component) (w : MyFileListInput)
    (fl : List (String × File)) (f : File)
    (hcb : c.hasOnChange = true) (hco : c.stateChanges.completed = false) :
    ((setValue c w).state.stateChanges.nextCalls = c.stateChanges.nextCalls + 1 ∧
      (setValue c w).state.stateChanges.emits = c.stateChanges.emits + 1 ∧
      (setValue c w).state.onChangeCalls = c.onChangeCalls + 1) ∧
    ((onFilesAdded c fl).state.stateChanges.nextCalls = c.stateChanges.nextCalls + 1 ∧
      (onFilesAdded c fl).state.stateChanges.emits = c.stateChanges.emits + 1 ∧
      (onFilesAdded c fl).state.onChangeCalls = c.onChangeCalls + 1) ∧
    ((removeFile c f).state.stateChanges.nextCalls = c.stateChanges.nextCalls + 1 ∧
      (removeFile c f).state.stateChanges.emits = c.stateChanges.emits + 1 ∧
      (removeFile c f).state.onChangeCalls = c.onChangeCalls + 1) := by
  unfold setValue onFilesAdded removeFile
  refine ⟨⟨?_, ?_, ?_⟩, ⟨?_, ?_, ?_⟩, ⟨?_, ?_, ?_⟩⟩ <;>
    first
    | (rw [invokeOnChange_state_onChangeCalls]
       exact hcb)
    | (rw [invokeOnChange_state_stateChanges]
       show (subjectNext c.stateChanges).emits = _
       unfold subjectNext
       rw [hco]
       rfl)
    | (rw [invokeOnChange_state_stateChanges]
       rfl)

/-- C3 witness: the theorem applied to the fresh component with a
registered callback, for a concrete wrapper, collection and file. -/
theorem C3_one_notification_per_mutation_witness :
    (registerOnChange (initialComponent "a")).hasOnChange = true ∧
    (registerOnChange (initialComponent "a")).stateChanges.completed = false ∧
    (setValue (registerOnChange (initialComponent "a")) { files := [2] }).state.stateChanges.nextCalls
      = (registerOnChange (initialComponent "a")).stateChanges.nextCalls + 1 ∧
    (onFilesAdded (registerOnChange (initialComponent "a")) [("0", 2)]).state.onChangeCalls
      = (registerOnChange (initialComponent "a")).onChangeCalls + 1 ∧
    (removeFile (registerOnChange (initialComponent "a")) 2).state.stateChanges.emits
      = (registerOnChange (initialComponent "a")).stateChanges.emits + 1 :=
  ⟨rfl, rfl,
    (C3_one_notification_per_mutation (registerOnChange (initialComponent "a"))
      { files := [2] } [("0", 2)] 2 rfl rfl).1.1,
    (C3_one_notification_per_mutation (registerOnChange (initialComponent "a"))
      { files := [2] } [("0", 2)] 2 rfl rfl).2.1.2.2,
    (C3_one_notification_per_mutation (registerOnChange (initialComponent "a"))
      { files := [2] } [("0", 2)] 2 rfl rfl).2.2.2.1⟩

/-! Invariant: the Selection of every reachable component state is
duplicate-free. -/

theorem reachable_files_nodup {c : Component} (h : Reachable c) : c.files.Nodup := by
  induction h with
  | init idStr => exact List.nodup_nil
  | stepSetValue w hw h ih =>
    unfold setValue
    rw [invokeOnChange_state_files]
    exact hw
  | stepOnFilesAdded fl h ih =>
    unfold onFilesAdded
    rw [invokeOnChange_state_files]
    exact addFilesFromList_nodup fl _ ih
  | stepRemoveFile f h ih =>
    unfold removeFile
    rw [invokeOnChange_state_files]
    exact jsSetDelete_nodup f ih
  | stepSetRequired v h ih => exact ih
  | stepSetDisabled v h ih => exact ih
  | stepSetDescribedByIds ids h ih => exact ih
  | stepFocusChange v h ih => exact ih
  | stepRegisterOnChange h ih => exact ih
  | stepDestroy h ih => exact ih

/-- C7: in every reachable component state the Selection contains no
duplicate file references, and an `onFilesAdded` call whose collection
holds only files already present leaves the Selection's contents
unchanged (re-adding is idempotent). -/
theorem C7_selection_nodup_readd_noop (c : Component) (hr : Reachable c)
    (fl : List (String × File)) (hfl : ∀ kv ∈ fl, kv.2 ∈ c.files) :
    c.files.Nodup ∧ (onFilesAdded c fl).state.files = c.files := by
  refine ⟨reachable_files_nodup hr, ?_⟩
  unfold onFilesAdded
  rw [invokeOnChange_state_files]
  exact addFilesFromList_of_mem fl c.files hfl

/-- C7 witness: the state reached by adding file `1` under key `"0"` to a
fresh component is duplicate-free, and re-adding the same file reference
leaves the Selection unchanged. -/
theorem C7_selection_nodup_readd_noop_witness :
    (∀ kv ∈ [("0", (1 : File))],
        kv.2 ∈ (onFilesAdded (initialComponent "a") [("0", 1)]).state.files) ∧
    ((onFilesAdded (initialComponent "a") [("0", 1)]).state.files.Nodup ∧
      (onFilesAdded (onFilesAdded (initialComponent "a") [("0", 1)]).state
          [("0", 1)]).state.files
        = (onFilesAdded (initialComponent "a") [("0", 1)]).state.files) :=
  ⟨by decide,
    C7_selection_nodup_readd_noop (onFilesAdded (initialComponent "a") [("0", 1)]).state
      (Reachable.stepOnFilesAdded [("0", 1)] (Reachable.init "a"))
      [("0", 1)] (by decide)⟩

/-! Decoding decimal digit strings, for the injectivity of the generated
ids. -/

def digitVal (c : Char) : Nat :=
  c.toNat - 48

def decodeChars (cs : List Char) : Nat :=
  cs.foldl (fun a c => 10 * a + digitVal c) 0

theorem digitVal_digitChar (r : Nat) (h : r < 10) :
    digitVal (Nat.digitChar r) = r := by
  interval_cases r <;> rfl

theorem decodeChars_append (xs : List Char) (c : Char) :
    decodeChars (xs ++ [c]) = 10 * decodeChars xs + digitVal c := by
  unfold decodeChars
  rw [List.foldl_append]
  rfl

theorem decodeChars_decChars (n : Nat) : decodeChars (decChars n) = n := by
  induction n using Nat.strong_induction_on with
  | _ n ih =>
    rw [decChars]
    split
    · next h =>
      show 10 * 0 + digitVal (Nat.digitChar n) = n
      rw [digitVal_digitChar n h]
      omega
    · next h =>
      rw [decodeChars_append,
          ih (n / 10) (Nat.div_lt_self (by omega) (by omega)),
          digitVal_digitChar (n % 10) (Nat.mod_lt n (by omega))]
      omega

theorem jsNatToString_injective (a b : Nat)
    (h : jsNatToString a = jsNatToString b) : a = b := by
  unfold jsNatToString at h
  have hd : decChars a = decChars b := congrArg String.data h
  have := congrArg decodeChars hd
  rwa [decodeChars_decChars, decodeChars_decChars] at this

theorem mkId_injective (a b : Nat) (h : mkId a = mkId b) : a = b := by
  unfold mkId at h
  have h2 : (idBase ++ jsNatToString a).data = (idBase ++ jsNatToString b).data :=
    congrArg String.data h
  simp only [String.data_append] at h2
  have h3 := List.append_cancel_left h2
  exact jsNatToString_injective a b (String.ext h3)

theorem constructN_map_id (n k : Nat) :
    (constructN n k).map Component.id
      = (List.range n).map (fun i => mkId (k + i)) := by
  induction n generalizing k with
  | zero => rfl
  | succ n ih =>
    show mkId k :: (constructN n (k + 1)).map Component.id = _
    rw [ih (k + 1), List.range_succ_eq_map]
    simp only [List.map_cons, List.map_map, Nat.add_zero]
    refine congrArg (fun l => mkId k :: l) ?_
    apply List.map_congr_left
    intro i hi
    simp only [Function.comp_apply]
    exact congrArg mkId (by omega)

/-- C8: constructing `n` instances in sequence from counter value `k`
yields the ids `mkId k, mkId (k+1), …`: the fixed base followed by a
numeric suffix that strictly increases from one construction to the
next, and all the resulting id strings are pairwise distinct. -/
theorem C8_ids_increasing_distinct (n k : Nat) :
    (constructN n k).map Component.id
      = (List.range n).map (fun i => mkId (k + i)) ∧
    List.Pairwise (fun a b => a < b) ((List.range n).map (fun i => k + i)) ∧
    ((constructN n k).map Component.id).Nodup := by
  refine ⟨constructN_map_id n k, ?_, ?_⟩
  · exact List.Pairwise.map _ (fun {a b} hab => by omega) (List.pairwise_lt_range n)
  · rw [constructN_map_id n k]
    refine List.Nodup.map ?_ (List.nodup_range n)
    intro a b hab
    have := mkId_injective (k + a) (k + b) hab
    omega

/-! The state-change subject stays silent after completion. -/

theorem subjectNext_of_completed {s : SubjectState} (hc : s.completed = true) :
    (subjectNext s).completed = true ∧ (subjectNext s).emits = s.emits := by
  unfold subjectNext
  rw [hc]
  exact ⟨rfl, rfl⟩

theorem applyOp_preserves_completed {c : Component}
    (hc : c.stateChanges.completed = true) (op : Op) :
    (applyOp c op).stateChanges.completed = true ∧
    (applyOp c op).stateChanges.emits = c.stateChanges.emits := by
  cases op with
  | opSetValue w =>
    show (setValue c w).state.stateChanges.completed = true ∧
      (setValue c w).state.stateChanges.emits = c.stateChanges.emits
    unfold setValue
    rw [invokeOnChange_state_stateChanges]
    exact subjectNext_of_completed hc
  | opOnFilesAdded fl =>
    show (onFilesAdded c fl).state.stateChanges.completed = true ∧
      (onFilesAdded c fl).state.stateChanges.emits = c.stateChanges.emits
    unfold onFilesAdded
    rw [invokeOnChange_state_stateChanges]
    exact subjectNext_of_completed hc
  | opRemoveFile f =>
    show (removeFile c f).state.stateChanges.completed = true ∧
      (removeFile c f).state.stateChanges.emits = c.stateChanges.emits
    unfold removeFile
    rw [invokeOnChange_state_stateChanges]
    exact subjectNext_of_completed hc
  | opSetRequired v => exact subjectNext_of_completed hc
  | opSetDisabled v => exact subjectNext_of_completed hc
  | opSetDescribedByIds ids => exact ⟨hc, rfl⟩
  | opFocusChange v => exact subjectNext_of_completed hc
  | opRegisterOnChange => exact ⟨hc, rfl⟩
  | opRegisterOnTouched => exact ⟨hc, rfl⟩
  | opSetDisabledState => exact ⟨hc, rfl⟩
  | opWriteValue => exact ⟨hc, rfl⟩
  | opContainerClick => exact ⟨hc, rfl⟩
  | opAddFiles => exact ⟨hc, rfl⟩
  | opDestroy => exact ⟨rfl, rfl⟩

theorem applyOps_preserves_completed (ops : List Op) (c : Component)
    (hc : c.stateChanges.completed = true) :
    (applyOps c ops).stateChanges.completed = true ∧
    (applyOps c ops).stateChanges.emits = c.stateChanges.emits := by
  induction ops generalizing c with
  | nil => exact ⟨hc, rfl⟩
  | cons op tl ih =>
    have h1 := applyOp_preserves_completed hc op
    have h2 := ih (applyOp c op) h1.1
    show (applyOps (applyOp c op) tl).stateChanges.completed = true ∧
      (applyOps (applyOp c op) tl).stateChanges.emits = c.stateChanges.emits
    exact ⟨h2.1, h2.2.trans h1.2⟩

/-- C9: `ngOnDestroy` completes the `stateChanges` stream and stops the
focus monitor on the root element; afterwards no sequence of further
operations ever produces an observable emission on the stream (its
observable emission count stays fixed and it stays completed). -/
theorem C9_ngOnDestroy_teardown (c : Component) (ops : List Op) :
    (ngOnDestroy c).monitoringStopped = true ∧
    (ngOnDestroy c).stateChanges.completed = true ∧
    (applyOps (ngOnDestroy c) ops).stateChanges.completed = true ∧
    (applyOps (ngOnDestroy c) ops).stateChanges.emits
      = (ngOnDestroy c).stateChanges.emits := by
  have h := applyOps_preserves_completed ops (ngOnDestroy c) rfl
  exact ⟨rfl, rfl, h.1, h.2⟩

/-- C10: after `value = w` the component's `files` field aliases exactly
the `Set` reference carried by `w` (no copy); a subsequent `value` read
allocates a fresh wrapper (at the next free wrapper address, which is
then bumped) whose `files` field is reference-equal to `w.files`; and
`removeFile` and `onFilesAdded` mutate the heap cell behind that shared
reference, so their effect is visible through `w` and through every
wrapper holding the same reference. -/
theorem C10_value_aliasing (c : RefComponent) (h : RefHeap) (w : Nat) (f : File)
    (fl : List (String × File)) :
    (refSetValue c h w).filesRef = h.wrapperFiles w ∧
    (refGetValue (refSetValue c h w) h).1 = h.nextWrapper ∧
    (refGetValue (refSetValue c h w) h).2.nextWrapper = h.nextWrapper + 1 ∧
    (refGetValue (refSetValue c h w) h).2.wrapperFiles
        (refGetValue (refSetValue c h w) h).1
      = h.wrapperFiles w ∧
    (refRemoveFile (refSetValue c h w) h f).sets (h.wrapperFiles w)
      = jsSetDelete (h.sets (h.wrapperFiles w)) f ∧
    (refOnFilesAdded (refSetValue c h w) h fl).sets (h.wrapperFiles w)
      = addFilesFromList (h.sets (h.wrapperFiles w)) fl := by
  refine ⟨rfl, rfl, rfl, ?_, ?_, ?_⟩ <;>
    simp [refGetValue, newMyFileListInput, refSetValue, refRemoveFile, refOnFilesAdded]

end FileUploadArea
